import Mathlib

/-!
Verification of the embedded-database persistence layer of the Hebrew
lexicon extractor (DatabaseService in services/db.ts, enrichment logic in
App.tsx).  The definitions below are a shallow embedding of that code:
SQLite tables become lists of rows, the asynchronous control flow of the
fire-and-forget save() call becomes an explicit event trace with a marker
for the point where control returns to the caller, and the network and
cache environment at startup becomes an explicit record of the blobs each
source would provide.
-/

namespace Lexicon

/-- Caller-side entry record (interface LexiconEntry in types.ts).
Optional TS fields are Option; the truthiness coercions applied by
addEntries are in rowOfEntry below. -/
structure LexiconEntry where
  id : String
  hebrewWord : String
  hebrewConsonantal : Option String
  transliteration : Option String
  partOfSpeech : String
  definition : String
  root : Option String
  isRoot : Option Bool
  strongsNumbers : Option String
  sourcePage : Option String
  sourceUrl : Option String
  deriving Repr, DecidableEq, Inhabited

/-- Stored row of the entries table, one field per bound column of the
INSERT OR REPLACE statement in addEntries. -/
structure Row where
  id : String
  hebrewWord : String
  hebrewConsonantal : String
  transliteration : String
  partOfSpeech : String
  definition : String
  root : String
  isRoot : Nat
  strongsNumbers : String
  sourcePage : String
  sourceUrl : String
  dateAdded : Int
  deriving Repr, DecidableEq, Inhabited

/-- Column binding performed by addEntries for one entry: JS falsy
defaults (x || two quotes) become Option.getD, the ternary
(entry.isRoot ? 1 : 0) becomes a 1/0 flag, and dateAdded is the shared
batch timestamp now. -/
def rowOfEntry (now : Int) (e : LexiconEntry) : Row :=
  { id := e.id
    hebrewWord := e.hebrewWord
    hebrewConsonantal := e.hebrewConsonantal.getD ""
    transliteration := e.transliteration.getD ""
    partOfSpeech := e.partOfSpeech
    definition := e.definition
    root := e.root.getD ""
    isRoot := if e.isRoot.getD false then 1 else 0
    strongsNumbers := e.strongsNumbers.getD ""
    sourcePage := e.sourcePage.getD ""
    sourceUrl := e.sourceUrl.getD ""
    dateAdded := now }

/-- INSERT OR REPLACE on the primary key id: SQLite deletes any row that
conflicts on id and inserts the new row (with a fresh rowid, hence at the
end). -/
def upsert (r : Row) (t : List Row) : List Row :=
  List.filter (fun x => !(x.id == r.id)) t ++ [r]

/-- Table effect of addEntries: the prepared statement is run once per
entry, in list order, all inside one transaction. -/
def addEntriesDb (now : Int) (t : List Row) (es : List LexiconEntry) : List Row :=
  (es.map (rowOfEntry now)).foldl (fun acc r => upsert r acc) t

/-- Row of the read-only strongs lookup database (table strongs with
columns lemma and number). -/
structure StrongsRow where
  lemmaText : String
  number : String
  deriving Repr, DecidableEq, Inhabited

/-- Observable primitive events of one service call, in execution order.
The ret event marks control returning to the caller; events after ret are
the continuation of the un-awaited async save() running later on the
microtask queue. -/
inductive Event where
  | beginTx
  | insertRow (r : Row)
  | commitTx
  | rollbackTx
  | deleteRows (ids : List String)
  | logError
  | exportDb
  | cachePutStart
  | cachePutDone
  | serverPushStart
  | serverPushDone
  | ret
  deriving Repr, DecidableEq

/-- Events of save() up to its first await: the synchronous export of the
engine and the start of the localforage write.  Because the caller does
not await save(), control returns to the caller at that first await. -/
def saveSyncEvents : List Event :=
  [Event.exportDb, Event.cachePutStart]

/-- Events of the rest of save(), which runs after control has returned:
completion of the cache write, then the conditional push to the server. -/
def saveAsyncEvents (serverAvailable : Bool) : List Event :=
  [Event.cachePutDone] ++
    (if serverAvailable then [Event.serverPushStart, Event.serverPushDone] else [])

/-- In-memory state of the DatabaseService relevant to the entry CRUD
surface: the main engine (None before init or after reset), the strongs
lookup engine, and the server availability flag cached at startup. -/
structure DBState where
  db : Option (List Row)
  strongsDb : Option (List StrongsRow)
  serverAvailable : Bool
  deriving DecidableEq, Inhabited

/-- Result of one service call in the embedding: the state after the call
and its whole event trace (including post-return async events); raised
records whether an exception propagates to the caller. -/
structure OpResult (α : Type) where
  state : DBState
  out : α
  events : List Event
  raised : Bool
  deriving DecidableEq

/-- Shallow embedding of addEntries.  rowFails is the failure oracle for
stmt.run: a row on which it returns true makes the engine throw there.
The catch block logs, rolls back and swallows the exception, so raised is
always false. -/
def addEntries (rowFails : Row → Bool) (now : Int) (s : DBState)
    (entries : List LexiconEntry) : OpResult Unit :=
  match s.db with
  | none => ⟨s, (), [Event.ret], false⟩
  | some t =>
    let rows := entries.map (rowOfEntry now)
    if rows.any rowFails then
      ⟨s, (),
        [Event.beginTx] ++
          (rows.takeWhile (fun r => !rowFails r)).map Event.insertRow ++
          [Event.logError, Event.rollbackTx, Event.ret], false⟩
    else
      ⟨{ s with db := some (rows.foldl (fun acc r => upsert r acc) t) }, (),
        [Event.beginTx] ++ rows.map Event.insertRow ++ [Event.commitTx] ++
          saveSyncEvents ++ [Event.ret] ++ saveAsyncEvents s.serverAvailable,
        false⟩

/-- Shallow embedding of deleteEntries: early return when the engine is
absent or the id list is empty, otherwise one DELETE ... WHERE id IN
statement followed by the un-awaited save(). -/
def deleteEntries (s : DBState) (ids : List String) : OpResult Unit :=
  match s.db with
  | none => ⟨s, (), [Event.ret], false⟩
  | some t =>
    if ids.isEmpty then ⟨s, (), [Event.ret], false⟩
    else
      ⟨{ s with db := some (List.filter (fun r => !ids.contains r.id) t) }, (),
        [Event.deleteRows ids] ++ saveSyncEvents ++ [Event.ret] ++
          saveAsyncEvents s.serverAvailable, false⟩

/-- Read side of getAllEntries: SELECT * FROM entries ORDER BY dateAdded
DESC.  The ORDER BY is a sort under the descending dateAdded key. -/
def getAllEntriesRows (t : List Row) : List Row :=
  List.mergeSort t (fun a b => decide (b.dateAdded ≤ a.dateAdded))

/-- Shallow embedding of getAllEntries: empty list when the engine is
absent; a pure read otherwise (no mutation, no persistence). -/
def getAllEntries (s : DBState) : OpResult (List Row) :=
  match s.db with
  | none => ⟨s, [], [Event.ret], false⟩
  | some t => ⟨s, getAllEntriesRows t, [Event.ret], false⟩

/-- ASCII lower-casing used by the default SQLite LIKE collation (only
the 26 ASCII uppercase letters fold; every other code point, including
all Hebrew letters, is left unchanged). -/
def asciiLower (c : Char) : Char :=
  if 65 ≤ c.toNat ∧ c.toNat ≤ 90 then Char.ofNat (c.toNat + 32) else c

/-- SQLite LIKE with the pattern built as letter followed by the percent
wildcard, for a single literal (non-wildcard) letter: the string must be
nonempty and its first character must equal the letter up to ASCII case
folding. -/
def likeLetter (letter : Char) (s : String) : Bool :=
  match s.data with
  | [] => false
  | c :: _ => asciiLower c == asciiLower letter

/-- WHERE clause of getEntriesByLetter: hebrewWord LIKE pattern OR
hebrewConsonantal LIKE pattern. -/
def rowMatchesLetter (letter : Char) (r : Row) : Bool :=
  likeLetter letter r.hebrewWord || likeLetter letter r.hebrewConsonantal

/-- Read side of getEntriesByLetter: filter by the LIKE clause, then
ORDER BY hebrewWord ASC.  Lean string order coincides with the SQLite
BINARY collation on UTF-8 text because UTF-8 byte order agrees with code
point order. -/
def getEntriesByLetterRows (letter : Char) (t : List Row) : List Row :=
  List.mergeSort (List.filter (rowMatchesLetter letter) t)
    (fun a b => decide (a.hebrewWord ≤ b.hebrewWord))

/-- Shallow embedding of getEntriesByLetter: empty when the engine is
absent, otherwise a pure read. -/
def getEntriesByLetter (s : DBState) (letter : Char) : OpResult (List Row) :=
  match s.db with
  | none => ⟨s, [], [Event.ret], false⟩
  | some t => ⟨s, getEntriesByLetterRows letter t, [Event.ret], false⟩

/-- Shallow embedding of getStrongNumbersFor: empty when the strongs
engine never loaded or the lemma is the empty string (JS falsy check),
otherwise the numbers of exact lemma matches, skipping falsy (empty)
numbers. -/
def getStrongNumbersFor (s : DBState) (lem : String) : OpResult (List String) :=
  match s.strongsDb with
  | none => ⟨s, [], [Event.ret], false⟩
  | some rows =>
    if lem == "" then ⟨s, [], [Event.ret], false⟩
    else
      ⟨s, (rows.filter (fun r => r.lemmaText == lem)).filterMap
            (fun r => if r.number == "" then none else some r.number),
        [Event.ret], false⟩

/-- Shallow embedding of ensureColumn.  The argument is the PRAGMA
table_info metadata of the entries table: None when the engine is absent,
otherwise the list of column names (empty when the table does not exist).
Returns whether a change was made together with the new metadata; the
columnDef text only appears inside the ALTER TABLE statement. -/
def ensureColumn (columnName : String) (columnDef : String)
    (s : Option (List String)) : Bool × Option (List String) :=
  match s with
  | none => (false, none)
  | some cols =>
    if cols.isEmpty then (false, some cols)
    else if cols.contains columnName then (false, some cols)
    else (true, some (cols ++ [columnName]))

/-- The sixteen header bytes of the constant SQLITE_HEADER string, SQLite
format 3 followed by a NUL byte. -/
def sqliteHeader : List Nat :=
  [83, 81, 76, 105, 116, 101, 32, 102, 111, 114, 109, 97, 116, 32, 51, 0]

/-- Shallow embedding of isSqliteFile: false on a missing buffer or one
shorter than the header, otherwise an exact comparison of the first
sixteen bytes against the header (the ascii TextDecoder maps distinct
bytes to distinct characters, so decoding then comparing strings equals
comparing the bytes). -/
def isSqliteFile : Option (List Nat) → Bool
  | none => false
  | some bytes =>
    decide (List.length sqliteHeader ≤ List.length (α := Nat) bytes) &&
      List.take (List.length sqliteHeader) bytes == sqliteHeader

/-- Value of the loadSource field after init (the null start value is the
Option layer at use sites). -/
inductive LoadSource where
  | server
  | indexedDB
  | prebuiltFile
  | fresh
  | invalidCache
  deriving Repr, DecidableEq

/-- Environment init runs against: the outcome of the status probe, the
body of GET lexicon.sqlite when the response is ok (None on error or a
non-2xx response), the localforage cache content, and the bodies the two
prebuilt static paths would return. -/
structure InitEnv where
  serverUp : Bool
  serverBody : Option (List Nat)
  cacheBlob : Option (List Nat)
  prebuilt1 : Option (List Nat)
  prebuilt2 : Option (List Nat)
  deriving DecidableEq, Inhabited

/-- Console messages init emits on invalid blobs. -/
inductive InitLog where
  | invalidServerFile
  | invalidCache
  | invalidPrebuilt (pathIndex : Nat)
  deriving Repr, DecidableEq

/-- Observable outcome of the init source-selection state machine:
which source the db was opened from, the exact blob handed to the SQL
engine (None in the fresh branch), whether the cache and prebuilt
fallbacks were ever consulted, whether the cache entry was cleared, and
the emitted warnings. -/
structure InitResult where
  loadSource : Option LoadSource
  openedBlob : Option (List Nat)
  cacheRead : Bool
  prebuiltTried : Bool
  cacheCleared : Bool
  serverAvailable : Bool
  logs : List InitLog
  deriving DecidableEq

/-- Shallow embedding of the source-selection part of init: probe the
server, try loadFromServer when reachable, else the localforage cache
(clearing it when header-invalid), else the two prebuilt paths in order,
else create a fresh database. -/
def initLoad (env : InitEnv) : InitResult :=
  let serverAvailable := env.serverUp
  let serverOk := serverAvailable && isSqliteFile env.serverBody
  let serverInvalid :=
    serverAvailable && env.serverBody.isSome && !isSqliteFile env.serverBody
  let logs0 : List InitLog := if serverInvalid then [InitLog.invalidServerFile] else []
  let db0 : Option (List Nat) := if serverOk then env.serverBody else none
  let src0 : Option LoadSource := if serverOk then some LoadSource.server else none
  let cacheRead := !serverOk
  let cacheOk := cacheRead && isSqliteFile env.cacheBlob
  let cacheInvalid := cacheRead && env.cacheBlob.isSome && !isSqliteFile env.cacheBlob
  let db1 := if cacheOk then env.cacheBlob else db0
  let src1 :=
    if cacheOk then some LoadSource.indexedDB
    else if cacheInvalid then some LoadSource.invalidCache
    else src0
  let logs1 := logs0 ++ (if cacheInvalid then [InitLog.invalidCache] else [])
  let prebuiltTried := !serverOk && !cacheOk
  let pre1Ok := prebuiltTried && isSqliteFile env.prebuilt1
  let pre1Invalid :=
    prebuiltTried && env.prebuilt1.isSome && !isSqliteFile env.prebuilt1
  let pre2Tried := prebuiltTried && !pre1Ok
  let pre2Ok := pre2Tried && isSqliteFile env.prebuilt2
  let pre2Invalid :=
    pre2Tried && env.prebuilt2.isSome && !isSqliteFile env.prebuilt2
  let db2 := if pre1Ok then env.prebuilt1 else if pre2Ok then env.prebuilt2 else db1
  let src2 := if pre1Ok || pre2Ok then some LoadSource.prebuiltFile else src1
  let logs2 := logs1 ++ (if pre1Invalid then [InitLog.invalidPrebuilt 0] else []) ++
    (if pre2Invalid then [InitLog.invalidPrebuilt 1] else [])
  let freshNeeded := prebuiltTried && !pre1Ok && !pre2Ok
  let src3 := if freshNeeded then some LoadSource.fresh else src2
  { loadSource := src3
    openedBlob := db2
    cacheRead := cacheRead
    prebuiltTried := prebuiltTried
    cacheCleared := cacheInvalid
    serverAvailable := serverAvailable
    logs := logs2 }

/-- Character class of the HEBREW_LETTER_REGEX in App.tsx: the code
points from alef (05D0) to tav (05EA). -/
def isHebrewConsonant (c : Char) : Bool :=
  decide (0x05D0 ≤ c.toNat) && decide (c.toNat ≤ 0x05EA)

/-- Shallow embedding of countHebrewLetters: the number of regex matches
of the Hebrew consonant class, i.e. the count of such characters (the
undefined and empty-string early return also yields 0). -/
def countHebrewLetters (value : String) : Nat :=
  List.countP isHebrewConsonant value.data

/-- Enrichment applied in handleFilesSelected to every entry returned by
extraction before it is inserted: isRoot is recomputed from the consonant
count of hebrewWord, strongsNumbers is the slash-joined lookup result
when nonempty, and the source metadata is filled in. -/
def enrichEntry (strongsLookup : String → List String) (fileName : String)
    (pageUrl : String) (e : LexiconEntry) : LexiconEntry :=
  let strongsMatches := strongsLookup e.hebrewWord
  { e with
    isRoot := some (countHebrewLetters e.hebrewWord == 3)
    strongsNumbers :=
      if strongsMatches.length > 0 then some (String.intercalate "/" strongsMatches)
      else none
    sourcePage := some fileName
    sourceUrl := some pageUrl }

/-! Theorems.  Helper lemmas come first, then one theorem per claim with
its witness or counterexample. -/

/-- Last entry of the batch carrying the given id: the prepared statement
runs in list order, so this is the entry whose values survive. -/
def lastProvided (i : String) (es : List LexiconEntry) : Option LexiconEntry :=
  es.foldl (fun acc e => if e.id == i then some e else acc) none

theorem lastProvided_append_one (i : String) (es : List LexiconEntry)
    (x : LexiconEntry) :
    lastProvided i (es ++ [x]) =
      if x.id == i then some x else lastProvided i es := by
  unfold lastProvided
  rw [List.foldl_append]
  rfl

theorem addEntriesDb_append_one (now : Int) (t : List Row)
    (es : List LexiconEntry) (x : LexiconEntry) :
    addEntriesDb now t (es ++ [x]) =
      upsert (rowOfEntry now x) (addEntriesDb now t es) := by
  unfold addEntriesDb
  rw [List.map_append, List.foldl_append]
  rfl

theorem filter_id_upsert (i : String) (r : Row) (t : List Row) :
    List.filter (fun x => x.id == i) (upsert r t) =
      if r.id == i then [r] else List.filter (fun x => x.id == i) t := by
  unfold upsert
  rw [List.filter_append, List.filter_filter]
  by_cases h : r.id = i
  · subst h
    have hcongr : ∀ x ∈ t, ((x.id == r.id) && !(x.id == r.id)) = false := by
      intro x _
      cases hx : (x.id == r.id) <;> simp [hx]
    rw [List.filter_congr hcongr, List.filter_false]
    simp
  · have hne : (r.id == i) = false := by simp [h]
    have hcongr : ∀ x ∈ t, ((x.id == i) && !(x.id == r.id)) = (x.id == i) := by
      intro x _
      by_cases hx : x.id = i
      · have hir : (i == r.id) = false := by
          simp
          intro hh
          exact h hh.symm
        rw [hx]
        simp [hir]
      · simp [hx]
    rw [List.filter_congr hcongr, hne]
    simp [hne]

theorem filter_addEntriesDb_lastProvided (now : Int) (i : String)
    (es : List LexiconEntry) :
    ∀ (t : List Row) (e : LexiconEntry), lastProvided i es = some e →
      List.filter (fun r => r.id == i) (addEntriesDb now t es) =
        [rowOfEntry now e] := by
  induction es using List.reverseRecOn with
  | nil =>
    intro t e h
    simp [lastProvided] at h
  | append_singleton es x ih =>
    intro t e h
    rw [lastProvided_append_one] at h
    rw [addEntriesDb_append_one, filter_id_upsert]
    have hid : (rowOfEntry now x).id = x.id := rfl
    by_cases hx : x.id = i
    · have hb : (x.id == i) = true := by simp [hx]
      rw [hb] at h
      simp only [if_true] at h
      cases h
      rw [hid, hb]
      simp
    · have hb : (x.id == i) = false := by simp [hx]
      rw [hb] at h
      simp only [Bool.false_eq_true, if_false] at h
      rw [hid, hb]
      simp only [Bool.false_eq_true, if_false]
      exact ih t e h

/-- Claim C1: for every batch L, adding L and then scanning with
getAllEntries yields exactly one row per id occurring in L, and that row
is the stored image of the last entry of L carrying that id (upsert with
full-row replacement, last write wins inside the batch). -/
theorem addEntries_lastWriteWins (s : DBState) (t : List Row) (now : Int)
    (entries : List LexiconEntry) (i : String) (e : LexiconEntry)
    (hdb : s.db = some t)
    (hlast : lastProvided i entries = some e) :
    List.filter (fun row => row.id == i)
        (getAllEntries (addEntries (fun _ => false) now s entries).state).out =
      [rowOfEntry now e] ∧
    List.countP (fun row => row.id == i)
        (getAllEntries (addEntries (fun _ => false) now s entries).state).out = 1 := by
  have hstate :
      (addEntries (fun _ => false) now s entries).state.db =
        some (addEntriesDb now t entries) := by
    unfold addEntries
    rw [hdb]
    simp [addEntriesDb]
  have hout :
      (getAllEntries (addEntries (fun _ => false) now s entries).state).out =
        getAllEntriesRows (addEntriesDb now t entries) := by
    unfold getAllEntries
    rw [hstate]
  rw [hout]
  have hperm :
      (List.filter (fun row => row.id == i)
          (getAllEntriesRows (addEntriesDb now t entries))).Perm
        (List.filter (fun row => row.id == i) (addEntriesDb now t entries)) :=
    (List.mergeSort_perm (addEntriesDb now t entries) _).filter _
  rw [filter_addEntriesDb_lastProvided now i entries t e hlast] at hperm
  have hfilter := List.perm_singleton.mp hperm
  refine ⟨hfilter, ?_⟩
  rw [List.countP_eq_length_filter, hfilter]
  rfl

/-- Witness for C1: a two-entry batch reusing one id; the scan holds the
one row of the later entry. -/
theorem addEntries_lastWriteWins_witness :
    List.filter (fun row => row.id == "w1")
        (getAllEntries (addEntries (fun _ => false) 7
          ⟨some [], none, false⟩
          [⟨"w1", "אָב", none, none, "noun", "father", none, none, none, none, none⟩,
           ⟨"w1", "אֵם", some "אם", none, "noun", "mother", none, some true, none,
             none, none⟩]).state).out =
      [rowOfEntry 7
        ⟨"w1", "אֵם", some "אם", none, "noun", "mother", none, some true, none,
          none, none⟩] ∧
    List.countP (fun row => row.id == "w1")
        (getAllEntries (addEntries (fun _ => false) 7
          ⟨some [], none, false⟩
          [⟨"w1", "אָב", none, none, "noun", "father", none, none, none, none, none⟩,
           ⟨"w1", "אֵם", some "אם", none, "noun", "mother", none, some true, none,
             none, none⟩]).state).out = 1 :=
  addEntries_lastWriteWins ⟨some [], none, false⟩ [] 7
    [⟨"w1", "אָב", none, none, "noun", "father", none, none, none, none, none⟩,
     ⟨"w1", "אֵם", some "אם", none, "noun", "mother", none, some true, none, none,
       none⟩]
    "w1"
    ⟨"w1", "אֵם", some "אם", none, "noun", "mother", none, some true, none, none,
      none⟩
    rfl (by decide)

/-- Counterexample to claim C2 as stated: this failing one-row batch is
rolled back and nothing is persisted, but addEntries returns normally
with the error swallowed by its catch block, so the error is not
surfaced to the caller. -/
theorem addEntries_error_not_surfaced :
    ((addEntries (fun r => r.id == "bad") 5 ⟨some [], none, true⟩
        [⟨"bad", "x", none, none, "n", "d", none, none, none, none, none⟩]).raised
      = false) ∧
    ((addEntries (fun r => r.id == "bad") 5 ⟨some [], none, true⟩
        [⟨"bad", "x", none, none, "n", "d", none, none, none, none, none⟩]).state
      = ⟨some [], none, true⟩) ∧
    (Event.rollbackTx ∈ (addEntries (fun r => r.id == "bad") 5
        ⟨some [], none, true⟩
        [⟨"bad", "x", none, none, "n", "d", none, none, none, none, none⟩]).events) := by
  decide

/-- Claim C2 (amended): if any row write in addEntries fails, the whole
transaction is rolled back leaving the table unchanged and no persistence
to cache or server is triggered; the error is logged and swallowed, not
surfaced to the caller (addEntries returns normally). -/
theorem addEntries_rollback_on_failure (rowFails : Row → Bool) (now : Int)
    (s : DBState) (t : List Row) (entries : List LexiconEntry)
    (hdb : s.db = some t)
    (hfail : (entries.map (rowOfEntry now)).any rowFails = true) :
    (addEntries rowFails now s entries).state = s ∧
    (addEntries rowFails now s entries).raised = false ∧
    Event.rollbackTx ∈ (addEntries rowFails now s entries).events ∧
    Event.logError ∈ (addEntries rowFails now s entries).events ∧
    Event.commitTx ∉ (addEntries rowFails now s entries).events ∧
    Event.exportDb ∉ (addEntries rowFails now s entries).events ∧
    Event.cachePutStart ∉ (addEntries rowFails now s entries).events ∧
    Event.serverPushStart ∉ (addEntries rowFails now s entries).events := by
  unfold addEntries
  rw [hdb]
  simp [hfail]

/-- Witness for C2 (amended): a concrete failing batch on a nonempty
store. -/
theorem addEntries_rollback_on_failure_witness :
    (addEntries (fun r => r.id == "dup") 9
        ⟨some [rowOfEntry 1 ⟨"keep", "שלום", none, none, "n", "peace", none,
          none, none, none, none⟩], none, true⟩
        [⟨"dup", "y", none, none, "n", "d", none, none, none, none, none⟩]).state =
      ⟨some [rowOfEntry 1 ⟨"keep", "שלום", none, none, "n", "peace", none, none,
        none, none, none⟩], none, true⟩ ∧
    (addEntries (fun r => r.id == "dup") 9
        ⟨some [rowOfEntry 1 ⟨"keep", "שלום", none, none, "n", "peace", none,
          none, none, none, none⟩], none, true⟩
        [⟨"dup", "y", none, none, "n", "d", none, none, none, none, none⟩]).raised =
      false ∧
    Event.rollbackTx ∈ (addEntries (fun r => r.id == "dup") 9
        ⟨some [rowOfEntry 1 ⟨"keep", "שלום", none, none, "n", "peace", none,
          none, none, none, none⟩], none, true⟩
        [⟨"dup", "y", none, none, "n", "d", none, none, none, none, none⟩]).events ∧
    Event.logError ∈ (addEntries (fun r => r.id == "dup") 9
        ⟨some [rowOfEntry 1 ⟨"keep", "שלום", none, none, "n", "peace", none,
          none, none, none, none⟩], none, true⟩
        [⟨"dup", "y", none, none, "n", "d", none, none, none, none, none⟩]).events ∧
    Event.commitTx ∉ (addEntries (fun r => r.id == "dup") 9
        ⟨some [rowOfEntry 1 ⟨"keep", "שלום", none, none, "n", "peace", none,
          none, none, none, none⟩], none, true⟩
        [⟨"dup", "y", none, none, "n", "d", none, none, none, none, none⟩]).events ∧
    Event.exportDb ∉ (addEntries (fun r => r.id == "dup") 9
        ⟨some [rowOfEntry 1 ⟨"keep", "שלום", none, none, "n", "peace", none,
          none, none, none, none⟩], none, true⟩
        [⟨"dup", "y", none, none, "n", "d", none, none, none, none, none⟩]).events ∧
    Event.cachePutStart ∉ (addEntries (fun r => r.id == "dup") 9
        ⟨some [rowOfEntry 1 ⟨"keep", "שלום", none, none, "n", "peace", none,
          none, none, none, none⟩], none, true⟩
        [⟨"dup", "y", none, none, "n", "d", none, none, none, none, none⟩]).events ∧
    Event.serverPushStart ∉ (addEntries (fun r => r.id == "dup") 9
        ⟨some [rowOfEntry 1 ⟨"keep", "שלום", none, none, "n", "peace", none,
          none, none, none, none⟩], none, true⟩
        [⟨"dup", "y", none, none, "n", "d", none, none, none, none, none⟩]).events :=
  addEntries_rollback_on_failure (fun r => r.id == "dup") 9
    ⟨some [rowOfEntry 1 ⟨"keep", "שלום", none, none, "n", "peace", none, none,
      none, none, none⟩], none, true⟩
    [rowOfEntry 1 ⟨"keep", "שלום", none, none, "n", "peace", none, none, none,
      none, none⟩]
    [⟨"dup", "y", none, none, "n", "d", none, none, none, none, none⟩]
    rfl (by decide)

/-- Counterexample to claim C5 as stated: for this completed addEntries
call the cache write has not completed when control returns to the caller
(no cachePutDone event precedes the ret marker), although it does
complete later in the trace. -/
theorem addEntries_persistence_after_return :
    (((addEntries (fun _ => false) 3 ⟨some [], none, true⟩
        [⟨"p1", "אב", none, none, "n", "d", none, none, none, none,
          none⟩]).events.takeWhile
        (fun ev => !(ev == Event.ret))).contains Event.cachePutDone = false) ∧
    ((addEntries (fun _ => false) 3 ⟨some [], none, true⟩
        [⟨"p1", "אב", none, none, "n", "d", none, none, none, none,
          none⟩]).events.contains Event.cachePutDone = true) ∧
    ((addEntries (fun _ => false) 3 ⟨some [], none, true⟩
        [⟨"p1", "אב", none, none, "n", "d", none, none, none, none,
          none⟩]).events.contains Event.ret = true) := by
  decide

/-- Claim C5 (amended): a completed mutating call (addEntries or
deleteEntries) serializes the whole engine and starts the cache write
before returning, but does not await completion: the cache write
finishes, and when the server was available at startup the push to it
runs, only after control has returned to the caller. -/
theorem mutation_persistence_fire_and_forget (rowFails : Row → Bool)
    (now : Int) (s : DBState) (t : List Row) (entries : List LexiconEntry)
    (ids : List String)
    (hdb : s.db = some t)
    (hok : (entries.map (rowOfEntry now)).any rowFails = false)
    (hids : ids ≠ []) :
    (∃ pre post : List Event,
      (addEntries rowFails now s entries).events = pre ++ [Event.ret] ++ post ∧
      Event.ret ∉ pre ∧ Event.exportDb ∈ pre ∧ Event.cachePutStart ∈ pre ∧
      Event.cachePutDone ∉ pre ∧ Event.cachePutDone ∈ post ∧
      (s.serverAvailable = true → Event.serverPushDone ∈ post)) ∧
    (∃ pre post : List Event,
      (deleteEntries s ids).events = pre ++ [Event.ret] ++ post ∧
      Event.ret ∉ pre ∧ Event.exportDb ∈ pre ∧ Event.cachePutStart ∈ pre ∧
      Event.cachePutDone ∉ pre ∧ Event.cachePutDone ∈ post ∧
      (s.serverAvailable = true → Event.serverPushDone ∈ post)) := by
  constructor
  · refine ⟨[Event.beginTx] ++
      (entries.map (rowOfEntry now)).map Event.insertRow ++ [Event.commitTx] ++
      saveSyncEvents, saveAsyncEvents s.serverAvailable, ?_, ?_, ?_, ?_, ?_, ?_, ?_⟩
    · unfold addEntries
      rw [hdb]
      simp [hok]
    · simp [saveSyncEvents, List.mem_append, List.mem_map]
    · simp [saveSyncEvents]
    · simp [saveSyncEvents]
    · simp [saveSyncEvents, List.mem_append, List.mem_map]
    · simp [saveAsyncEvents]
    · intro h
      simp [saveAsyncEvents, h]
  · have hids2 : ids.isEmpty = false := by
      cases ids
      · exact absurd rfl hids
      · rfl
    refine ⟨[Event.deleteRows ids] ++ saveSyncEvents,
      saveAsyncEvents s.serverAvailable, ?_, ?_, ?_, ?_, ?_, ?_, ?_⟩
    · unfold deleteEntries
      rw [hdb]
      simp [hids2]
    · simp [saveSyncEvents]
    · simp [saveSyncEvents]
    · simp [saveSyncEvents]
    · simp [saveSyncEvents]
    · simp [saveAsyncEvents]
    · intro h
      simp [saveAsyncEvents, h]

/-- Witness for C5 (amended): one concrete insert batch and one concrete
delete on a store with the server available. -/
theorem mutation_persistence_fire_and_forget_witness :
    (∃ pre post : List Event,
      (addEntries (fun _ => false) 3 ⟨some [], none, true⟩
        [⟨"p2", "אור", none, none, "n", "light", none, none, none, none,
          none⟩]).events = pre ++ [Event.ret] ++ post ∧
      Event.ret ∉ pre ∧ Event.exportDb ∈ pre ∧ Event.cachePutStart ∈ pre ∧
      Event.cachePutDone ∉ pre ∧ Event.cachePutDone ∈ post ∧
      ((⟨some [], none, true⟩ : DBState).serverAvailable = true →
        Event.serverPushDone ∈ post)) ∧
    (∃ pre post : List Event,
      (deleteEntries ⟨some [], none, true⟩ ["p2"]).events =
        pre ++ [Event.ret] ++ post ∧
      Event.ret ∉ pre ∧ Event.exportDb ∈ pre ∧ Event.cachePutStart ∈ pre ∧
      Event.cachePutDone ∉ pre ∧ Event.cachePutDone ∈ post ∧
      ((⟨some [], none, true⟩ : DBState).serverAvailable = true →
        Event.serverPushDone ∈ post)) :=
  mutation_persistence_fire_and_forget (fun _ => false) 3
    ⟨some [], none, true⟩ []
    [⟨"p2", "אור", none, none, "n", "light", none, none, none, none, none⟩]
    ["p2"] rfl (by decide) (by decide)

/-- Claim C6: deleteEntries removes exactly the rows whose id is a member
of ids and leaves every other row unchanged; an empty id list leaves the
whole state untouched and makes no persistence call. -/
theorem deleteEntries_exact (s : DBState) (t : List Row) (ids : List String)
    (hdb : s.db = some t) :
    ((deleteEntries s ids).state.db =
      some (List.filter (fun r => !ids.contains r.id) t)) ∧
    (∀ r : Row, r ∈ List.filter (fun r => !ids.contains r.id) t ↔
      (r ∈ t ∧ ids.contains r.id = false)) ∧
    (ids = [] → deleteEntries s ids = ⟨s, (), [Event.ret], false⟩) := by
  refine ⟨?_, ?_, ?_⟩
  · unfold deleteEntries
    rw [hdb]
    cases hids : ids.isEmpty
    · simp
    · have : ids = [] := by
        cases ids
        · rfl
        · exact absurd hids (by simp)
      subst this
      simp [hdb]
  · intro r
    simp [List.mem_filter]
  · intro h
    subst h
    unfold deleteEntries
    rw [hdb]
    simp

/-- Witness for C6: a two-row store, deleting one id, and the empty-list
no-op. -/
theorem deleteEntries_exact_witness :
    ((deleteEntries ⟨some [⟨"a", "א", "", "", "n", "d", "", 0, "", "", "", 1⟩,
        ⟨"b", "ב", "", "", "n", "d", "", 0, "", "", "", 2⟩], none, false⟩
        ["a"]).state.db =
      some (List.filter (fun r => !(["a"] : List String).contains r.id)
        [⟨"a", "א", "", "", "n", "d", "", 0, "", "", "", 1⟩,
         ⟨"b", "ב", "", "", "n", "d", "", 0, "", "", "", 2⟩])) ∧
    (∀ r : Row, r ∈ List.filter (fun r => !(["a"] : List String).contains r.id)
        [⟨"a", "א", "", "", "n", "d", "", 0, "", "", "", 1⟩,
         ⟨"b", "ב", "", "", "n", "d", "", 0, "", "", "", 2⟩] ↔
      (r ∈ [⟨"a", "א", "", "", "n", "d", "", 0, "", "", "", 1⟩,
        ⟨"b", "ב", "", "", "n", "d", "", 0, "", "", "", 2⟩] ∧
        (["a"] : List String).contains r.id = false)) ∧
    ((["a"] : List String) = [] →
      deleteEntries ⟨some [⟨"a", "א", "", "", "n", "d", "", 0, "", "", "", 1⟩,
        ⟨"b", "ב", "", "", "n", "d", "", 0, "", "", "", 2⟩], none, false⟩ ["a"] =
      ⟨⟨some [⟨"a", "א", "", "", "n", "d", "", 0, "", "", "", 1⟩,
        ⟨"b", "ב", "", "", "n", "d", "", 0, "", "", "", 2⟩], none, false⟩, (),
        [Event.ret], false⟩) :=
  deleteEntries_exact
    ⟨some [⟨"a", "א", "", "", "n", "d", "", 0, "", "", "", 1⟩,
      ⟨"b", "ב", "", "", "n", "d", "", 0, "", "", "", 2⟩], none, false⟩
    [⟨"a", "א", "", "", "n", "d", "", 0, "", "", "", 1⟩,
     ⟨"b", "ב", "", "", "n", "d", "", 0, "", "", "", 2⟩]
    ["a"] rfl

/-- Claim C7: on a store where the entries table exists, ensureColumn is
idempotent: a second run with the same arguments reports no change and
leaves the metadata as it was, and the first run adds the column exactly
when it is missing, reporting whether it changed anything. -/
theorem ensureColumn_idempotent (cols : List String) (name df : String)
    (hex : cols ≠ []) :
    ((ensureColumn name df (ensureColumn name df (some cols)).2).1 = false) ∧
    ((ensureColumn name df (ensureColumn name df (some cols)).2).2 =
      (ensureColumn name df (some cols)).2) ∧
    ((ensureColumn name df (some cols)).1 = !cols.contains name) ∧
    ((ensureColumn name df (some cols)).2 =
      some (if cols.contains name then cols else cols ++ [name])) := by
  by_cases hmem : name ∈ cols
  · have h : cols.contains name = true := by simpa using hmem
    simp [ensureColumn, hex, hmem, h]
  · have h : cols.contains name = false := by simpa using hmem
    have hmem2 : name ∈ cols ++ [name] := by simp
    have hne2 : ¬ (cols ++ [name]) = [] := by simp
    simp [ensureColumn, hex, hmem, h, hmem2, hne2]

/-- Witness for C7: the isRoot migration run twice on a two-column
store. -/
theorem ensureColumn_idempotent_witness :
    ((ensureColumn "isRoot" "INTEGER NOT NULL DEFAULT 0"
        (ensureColumn "isRoot" "INTEGER NOT NULL DEFAULT 0"
          (some ["id", "hebrewWord"])).2).1 = false) ∧
    ((ensureColumn "isRoot" "INTEGER NOT NULL DEFAULT 0"
        (ensureColumn "isRoot" "INTEGER NOT NULL DEFAULT 0"
          (some ["id", "hebrewWord"])).2).2 =
      (ensureColumn "isRoot" "INTEGER NOT NULL DEFAULT 0"
        (some ["id", "hebrewWord"])).2) ∧
    ((ensureColumn "isRoot" "INTEGER NOT NULL DEFAULT 0"
        (some ["id", "hebrewWord"])).1 =
      !(["id", "hebrewWord"] : List String).contains "isRoot") ∧
    ((ensureColumn "isRoot" "INTEGER NOT NULL DEFAULT 0"
        (some ["id", "hebrewWord"])).2 =
      some (if (["id", "hebrewWord"] : List String).contains "isRoot"
        then ["id", "hebrewWord"] else ["id", "hebrewWord"] ++ ["isRoot"])) :=
  ensureColumn_idempotent ["id", "hebrewWord"] "isRoot"
    "INTEGER NOT NULL DEFAULT 0" (by decide)

/-- Specification-side reading of the claim text for C8: the string
begins with the given letter. -/
def beginsWithLetter (letter : Char) (s : String) : Bool :=
  match s.data with
  | [] => false
  | c :: _ => c == letter

theorem char_toNat_ofNat_valid (n : Nat) (h : n.isValidChar) :
    (Char.ofNat n).toNat = n := by
  simp [Char.ofNat, h, Char.ofNatAux, Char.toNat, UInt32.toNat,
    BitVec.toNat_ofNatLt]

theorem asciiLower_beq_hebrew (letter c : Char) (hlo : 1488 ≤ letter.toNat) :
    (asciiLower c == asciiLower letter) = (c == letter) := by
  have hl : asciiLower letter = letter := by
    unfold asciiLower
    have : ¬ (65 ≤ letter.toNat ∧ letter.toNat ≤ 90) := by omega
    simp [this]
  rw [hl]
  by_cases hc : 65 ≤ c.toNat ∧ c.toNat ≤ 90
  · have hv : (c.toNat + 32).isValidChar := Or.inl (by omega)
    have h1 : (asciiLower c).toNat = c.toNat + 32 := by
      unfold asciiLower
      simp only [hc, and_self, if_true]
      exact char_toNat_ofNat_valid _ hv
    have h2 : asciiLower c ≠ letter := by
      intro h
      have := congrArg Char.toNat h
      omega
    have h3 : c ≠ letter := by
      intro h
      have := congrArg Char.toNat h
      omega
    simp [h2, h3]
  · have : asciiLower c = c := by
      unfold asciiLower
      simp [hc]
    rw [this]

theorem likeLetter_eq_beginsWith (letter : Char) (s : String)
    (hlo : 1488 ≤ letter.toNat) :
    likeLetter letter s = beginsWithLetter letter s := by
  unfold likeLetter beginsWithLetter
  cases s.data
  · rfl
  · exact asciiLower_beq_hebrew letter _ hlo

/-- Claim C8: for a (Hebrew) single letter, getEntriesByLetter returns
exactly the rows whose hebrewWord or hebrewConsonantal begins with that
letter, sorted ascending by hebrewWord, and triggers neither mutation nor
persistence. -/
theorem getEntriesByLetter_spec (s : DBState) (t : List Row) (letter : Char)
    (hdb : s.db = some t)
    (hheb : 1488 ≤ letter.toNat ∧ letter.toNat ≤ 1514) :
    ((getEntriesByLetter s letter).out).Perm
      (List.filter (fun row =>
        beginsWithLetter letter row.hebrewWord ||
        beginsWithLetter letter row.hebrewConsonantal) t) ∧
    List.Sorted (fun a b : Row => a.hebrewWord ≤ b.hebrewWord)
      (getEntriesByLetter s letter).out ∧
    (getEntriesByLetter s letter).state = s ∧
    (getEntriesByLetter s letter).events = [Event.ret] ∧
    (getEntriesByLetter s letter).raised = false := by
  have hout : (getEntriesByLetter s letter).out =
      getEntriesByLetterRows letter t := by
    unfold getEntriesByLetter
    rw [hdb]
  have hfe : List.filter (rowMatchesLetter letter) t =
      List.filter (fun row =>
        beginsWithLetter letter row.hebrewWord ||
        beginsWithLetter letter row.hebrewConsonantal) t := by
    apply List.filter_congr
    intro row _
    unfold rowMatchesLetter
    rw [likeLetter_eq_beginsWith letter _ hheb.1,
      likeLetter_eq_beginsWith letter _ hheb.1]
  refine ⟨?_, ?_, ?_, ?_, ?_⟩
  · rw [hout]
    unfold getEntriesByLetterRows
    rw [hfe]
    exact List.mergeSort_perm _ _
  · rw [hout]
    unfold getEntriesByLetterRows
    have hp := @List.sorted_mergeSort Row
      (fun a b : Row => decide (a.hebrewWord ≤ b.hebrewWord))
      (fun a b c hab hbc => by
        simp only [decide_eq_true_eq] at *
        exact le_trans hab hbc)
      (fun a b => by
        simp only [Bool.or_eq_true, decide_eq_true_eq]
        exact le_total a.hebrewWord b.hebrewWord)
      (List.filter (rowMatchesLetter letter) t)
    exact hp.imp (fun h => by simpa using h)
  · unfold getEntriesByLetter
    rw [hdb]
  · unfold getEntriesByLetter
    rw [hdb]
  · unfold getEntriesByLetter
    rw [hdb]

/-- Witness for C8: the letter alef on a one-row store. -/
theorem getEntriesByLetter_spec_witness :
    ((getEntriesByLetter ⟨some [⟨"a", "אב", "", "", "n", "d", "", 0, "", "",
        "", 1⟩], none, false⟩ 'א').out).Perm
      (List.filter (fun row =>
        beginsWithLetter 'א' row.hebrewWord ||
        beginsWithLetter 'א' row.hebrewConsonantal)
        [⟨"a", "אב", "", "", "n", "d", "", 0, "", "", "", 1⟩]) ∧
    List.Sorted (fun a b : Row => a.hebrewWord ≤ b.hebrewWord)
      (getEntriesByLetter ⟨some [⟨"a", "אב", "", "", "n", "d", "", 0, "", "",
        "", 1⟩], none, false⟩ 'א').out ∧
    (getEntriesByLetter ⟨some [⟨"a", "אב", "", "", "n", "d", "", 0, "", "",
      "", 1⟩], none, false⟩ 'א').state =
      ⟨some [⟨"a", "אב", "", "", "n", "d", "", 0, "", "", "", 1⟩], none, false⟩ ∧
    (getEntriesByLetter ⟨some [⟨"a", "אב", "", "", "n", "d", "", 0, "", "",
      "", 1⟩], none, false⟩ 'א').events = [Event.ret] ∧
    (getEntriesByLetter ⟨some [⟨"a", "אב", "", "", "n", "d", "", 0, "", "",
      "", 1⟩], none, false⟩ 'א').raised = false :=
  getEntriesByLetter_spec
    ⟨some [⟨"a", "אב", "", "", "n", "d", "", 0, "", "", "", 1⟩], none, false⟩
    [⟨"a", "אב", "", "", "n", "d", "", 0, "", "", "", 1⟩] 'א' rfl (by decide)

/-- Claim C9: ingestion derives isRoot from the consonant count of
hebrewWord and ignores any caller-supplied value: true exactly when the
word has 3 Hebrew consonant letters, and in particular false for 2 or 4
such letters. -/
theorem enrich_isRoot_derived (strongsLookup : String → List String)
    (fileName pageUrl : String) (e : LexiconEntry) :
    ((enrichEntry strongsLookup fileName pageUrl e).isRoot =
      some (countHebrewLetters e.hebrewWord == 3)) ∧
    (∀ b : Option Bool,
      (enrichEntry strongsLookup fileName pageUrl
        { e with isRoot := b }).isRoot =
        (enrichEntry strongsLookup fileName pageUrl e).isRoot) ∧
    (countHebrewLetters e.hebrewWord = 2 ∨ countHebrewLetters e.hebrewWord = 4 →
      (enrichEntry strongsLookup fileName pageUrl e).isRoot = some false) := by
  refine ⟨rfl, fun b => rfl, ?_⟩
  intro h
  have hb : (countHebrewLetters e.hebrewWord == 3) = false := by
    rcases h with h | h <;> rw [h] <;> rfl
  show some (countHebrewLetters e.hebrewWord == 3) = some false
  rw [hb]

/-- Witness for C9: a two-consonant headword is enriched with isRoot
false even though the caller said true. -/
theorem enrich_isRoot_derived_witness :
    (enrichEntry (fun _ => []) "page1.jpg" "blob:a"
      ⟨"w9", "אב", none, none, "n", "d", none, some true, none, none,
        none⟩).isRoot = some false :=
  (enrich_isRoot_derived (fun _ => []) "page1.jpg" "blob:a"
      ⟨"w9", "אב", none, none, "n", "d", none, some true, none, none,
        none⟩).2.2 (Or.inl (by decide))

/-- Claim C10: before init has completed (no engine, no strongs engine),
every public operation is a total safe no-op: mutators return with state
untouched and no persistence, readers return the empty list, and none of
them raises. -/
theorem ops_noop_before_init (s : DBState) (rowFails : Row → Bool) (now : Int)
    (entries : List LexiconEntry) (ids : List String) (letter : Char)
    (lem : String)
    (hdb : s.db = none) (hstrongs : s.strongsDb = none) :
    addEntries rowFails now s entries = ⟨s, (), [Event.ret], false⟩ ∧
    deleteEntries s ids = ⟨s, (), [Event.ret], false⟩ ∧
    getAllEntries s = ⟨s, [], [Event.ret], false⟩ ∧
    getEntriesByLetter s letter = ⟨s, [], [Event.ret], false⟩ ∧
    getStrongNumbersFor s lem = ⟨s, [], [Event.ret], false⟩ := by
  unfold addEntries deleteEntries getAllEntries getEntriesByLetter
    getStrongNumbersFor
  rw [hdb, hstrongs]
  exact ⟨rfl, rfl, rfl, rfl, rfl⟩

/-- Witness for C10: the state right after construction, before init. -/
theorem ops_noop_before_init_witness :
    addEntries (fun _ => false) 0 ⟨none, none, false⟩
      [⟨"z", "א", none, none, "n", "d", none, none, none, none, none⟩] =
      ⟨⟨none, none, false⟩, (), [Event.ret], false⟩ ∧
    deleteEntries ⟨none, none, false⟩ ["z"] =
      ⟨⟨none, none, false⟩, (), [Event.ret], false⟩ ∧
    getAllEntries ⟨none, none, false⟩ =
      ⟨⟨none, none, false⟩, [], [Event.ret], false⟩ ∧
    getEntriesByLetter ⟨none, none, false⟩ 'א' =
      ⟨⟨none, none, false⟩, [], [Event.ret], false⟩ ∧
    getStrongNumbersFor ⟨none, none, false⟩ "אב" =
      ⟨⟨none, none, false⟩, [], [Event.ret], false⟩ :=
  ops_noop_before_init ⟨none, none, false⟩ (fun _ => false) 0
    [⟨"z", "א", none, none, "n", "d", none, none, none, none, none⟩]
    ["z"] 'א' "אב" rfl rfl

/-- Claim C3: when the server is reachable and serves a header-valid
image, init opens that image with load source server, regardless of a
simultaneously valid cache and prebuilt file, and never consults the
cache or prebuilt fallbacks. -/
theorem init_prefers_server (env : InitEnv) (sb : List Nat)
    (hup : env.serverUp = true)
    (hbody : env.serverBody = some sb)
    (hvalid : isSqliteFile (some sb) = true)
    (hcache : isSqliteFile env.cacheBlob = true)
    (hpre : isSqliteFile env.prebuilt1 = true) :
    (initLoad env).loadSource = some LoadSource.server ∧
    (initLoad env).openedBlob = some sb ∧
    (initLoad env).cacheRead = false ∧
    (initLoad env).prebuiltTried = false ∧
    (initLoad env).cacheCleared = false := by
  unfold initLoad
  rw [hup, hbody]
  simp [hvalid]

/-- Witness for C3: all three sources hold the minimal header-valid
image, with the server reachable. -/
theorem init_prefers_server_witness :
    (initLoad ⟨true, some sqliteHeader, some sqliteHeader, some sqliteHeader,
      none⟩).loadSource = some LoadSource.server ∧
    (initLoad ⟨true, some sqliteHeader, some sqliteHeader, some sqliteHeader,
      none⟩).openedBlob = some sqliteHeader ∧
    (initLoad ⟨true, some sqliteHeader, some sqliteHeader, some sqliteHeader,
      none⟩).cacheRead = false ∧
    (initLoad ⟨true, some sqliteHeader, some sqliteHeader, some sqliteHeader,
      none⟩).prebuiltTried = false ∧
    (initLoad ⟨true, some sqliteHeader, some sqliteHeader, some sqliteHeader,
      none⟩).cacheCleared = false :=
  init_prefers_server
    ⟨true, some sqliteHeader, some sqliteHeader, some sqliteHeader, none⟩
    sqliteHeader rfl rfl (by decide) (by decide) (by decide)

theorem initLoad_openedBlob_valid (env : InitEnv) (b : List Nat)
    (h : (initLoad env).openedBlob = some b) :
    isSqliteFile (some b) = true := by
  cases hS : (env.serverUp && isSqliteFile env.serverBody) <;>
    cases hC : isSqliteFile env.cacheBlob <;>
      cases hP1 : isSqliteFile env.prebuilt1 <;>
        cases hP2 : isSqliteFile env.prebuilt2 <;>
          simp [initLoad, hS, hC, hP1, hP2] at h <;>
            first
              | (rw [h] at hP1; exact hP1)
              | (rw [h] at hP2; exact hP2)
              | (rw [h] at hC; exact hC)
              | (rw [h] at hS; simp at hS; exact hS.2)

/-- Claim C4: a blob that does not start with the SQLite magic header is
never opened as the database from any source; when the cache holds such a
blob (and the server did not supply the image) init logs the
invalid-cache condition, clears the cache entry, and proceeds to the
remaining sources exactly as if the cache were empty. -/
theorem init_header_gate (env : InitEnv) (b : List Nat)
    (hcache : env.cacheBlob = some b)
    (hinvalid : isSqliteFile (some b) = false)
    (hnoserver : (env.serverUp && isSqliteFile env.serverBody) = false) :
    (∀ (env2 : InitEnv) (b2 : List Nat),
      (initLoad env2).openedBlob = some b2 → isSqliteFile (some b2) = true) ∧
    (initLoad env).cacheCleared = true ∧
    InitLog.invalidCache ∈ (initLoad env).logs ∧
    (initLoad env).loadSource =
      (initLoad { env with cacheBlob := none }).loadSource ∧
    (initLoad env).openedBlob =
      (initLoad { env with cacheBlob := none }).openedBlob := by
  have hnone : isSqliteFile none = false := rfl
  refine ⟨fun env2 b2 h => initLoad_openedBlob_valid env2 b2 h, ?_, ?_, ?_, ?_⟩
  all_goals
    cases hP1 : isSqliteFile env.prebuilt1 <;>
      cases hP2 : isSqliteFile env.prebuilt2 <;>
        simp [initLoad, hcache, hinvalid, hnoserver, hP1, hP2, hnone]

/-- Witness for C4: an unreachable server and a three-byte garbage cache
blob, with a valid prebuilt file to fall through to. -/
theorem init_header_gate_witness :
    (∀ (env2 : InitEnv) (b2 : List Nat),
      (initLoad env2).openedBlob = some b2 → isSqliteFile (some b2) = true) ∧
    (initLoad ⟨false, none, some [1, 2, 3], some sqliteHeader,
      none⟩).cacheCleared = true ∧
    InitLog.invalidCache ∈
      (initLoad ⟨false, none, some [1, 2, 3], some sqliteHeader, none⟩).logs ∧
    (initLoad ⟨false, none, some [1, 2, 3], some sqliteHeader,
      none⟩).loadSource =
      (initLoad { (⟨false, none, some [1, 2, 3], some sqliteHeader, none⟩ :
        InitEnv) with cacheBlob := none }).loadSource ∧
    (initLoad ⟨false, none, some [1, 2, 3], some sqliteHeader,
      none⟩).openedBlob =
      (initLoad { (⟨false, none, some [1, 2, 3], some sqliteHeader, none⟩ :
        InitEnv) with cacheBlob := none }).openedBlob :=
  init_header_gate ⟨false, none, some [1, 2, 3], some sqliteHeader, none⟩
    [1, 2, 3] rfl (by decide) (by decide)

end Lexicon
